import Mathlib

/-!
Verification of the cross-service track resolution bot (`src/bot.py`).

The Python source is shallowly embedded:
* Python `str` values are modelled as `String` / `List Char` (code points);
  `s.split(sep)` is `splitOnL`, `s.strip()` is `stripL`, `sub in s` is `containsL`.
* The two provider clients (`spotipy` / `tidalapi`) and the message author test
  are abstracted into an environment `Env` of oracles; every outbound provider
  call is recorded in a `PCall` trace so call counts can be stated.
* Python exceptions are modelled with `Except Err`; the `try/except` blocks of
  `on_message`, `get_tidal_url` and `get_spotify_url` become explicit catches.
* The spec's Match Scorer (§4.4) has no counterpart in the source; `score` below
  is modelled from the spec's words purely to compare with the code's selection.
-/

namespace LinkBot

deriving instance DecidableEq for Except

/-- Returns the text before and after the first occurrence of `sep` in `s`,
or `none` when `sep` does not occur.  This is the scanning core used to model
Python's `str.split`. -/
def findSub [BEq α] (sep : List α) : List α → Option (List α × List α)
  | [] => if sep.isEmpty then some ([], []) else none
  | c :: cs =>
    if sep.isPrefixOf (c :: cs) then some ([], (c :: cs).drop sep.length)
    else (findSub sep cs).map (fun p => (c :: p.1, p.2))

/-- Fueled worker for `splitOnL`; the fuel bounds the number of separator
occurrences, `s.length + 1` is always enough. -/
def splitOnAux [BEq α] (sep : List α) : Nat → List α → List (List α)
  | 0, s => [s]
  | n + 1, s =>
    match findSub sep s with
    | none => [s]
    | some (b, a) => b :: splitOnAux sep n a

/-- Python's `s.split(sep)` for a non-empty separator. -/
def splitOnL [BEq α] (sep s : List α) : List (List α) :=
  splitOnAux sep (s.length + 1) s

/-- Python's `s.strip()`: remove leading and trailing whitespace. -/
def stripL (s : List Char) : List Char :=
  ((s.dropWhile Char.isWhitespace).reverse.dropWhile Char.isWhitespace).reverse

/-- Python's `sub in s` substring test (for non-empty `sub`). -/
def containsL (s sub : List Char) : Bool := (findSub sub s).isSome

/-- Failure modes surfaced by the embedded Python code: an out-of-range
indexing (`IndexError`) or an exception raised by a provider client. -/
inductive Err where
  | indexError
  | provider (msg : String)
deriving DecidableEq

/-- The fields of a `spotipy` track object read by `on_message`:
`track_info['artists']` (a list of artist names) and `track_info['name']`. -/
structure SpotifyMeta where
  artists : List String
  name : String
deriving DecidableEq

/-- The fields of a `tidalapi` track object read by the code: `track.id`,
`track.artist.name`, `track.name`; `duration` is carried by the API object
but never read by the code (the spec's scorer would consume it). -/
structure TidalTrack where
  id : Nat
  artistName : String
  name : String
  duration : Option Nat
deriving DecidableEq

/-- The field of a Spotify search item read by the code:
`items[0]['external_urls']['spotify']`. -/
structure SpotifyItem where
  spotifyUrl : String
deriving DecidableEq

/-- One outbound provider call, recorded for call-count reasoning:
`sp.track`, `tidal_session.search`, `tidal_session.track`, `sp.search`. -/
inductive PCall where
  | spTrack (id : String)
  | tidalSearch (query : String)
  | tidalTrack (id : String)
  | spSearch (query : String)
deriving DecidableEq

/-- The environment of `on_message`: whether the message author is the bot
itself (`message.author == bot.user`) and the four provider oracles, each of
which may raise (`Except.error`). -/
structure Env where
  isSelf : Bool
  spTrack : String → Except Err SpotifyMeta
  tidalSearch : String → Except Err (List TidalTrack)
  tidalTrack : String → Except Err TidalTrack
  spSearch : String → Except Err (List SpotifyItem)

/-- The separator `"track/"` used by `content.split("track/")`. -/
def sepL : List Char := "track/".data

/-- The separator `"?"` used by `.split("?")`. -/
def qmarkL : List Char := "?".data

/-- The Spotify link anchor `"open.spotify.com/track/"`. -/
def spotifyAnchorL : List Char := "open.spotify.com/track/".data

/-- The TIDAL link anchor `"tidal.com/browse/track/"`. -/
def tidalAnchorL : List Char := "tidal.com/browse/track/".data

/-- The part of the Spotify anchor before its final `track/` segment. -/
def spotifyOpenL : List Char := "open.spotify.com/".data

/-- The part of the TIDAL anchor before its final `track/` segment. -/
def tidalOpenL : List Char := "tidal.com/browse/".data

/-- `content.split("track/")[1].split("?")[0]`: the id extraction shared by
both branches of `on_message`.  The `[1]` indexing raises `IndexError` when
`"track/"` does not occur (caught by the surrounding `except`). -/
def extract_track_id (content : List Char) : Except Err (List Char) :=
  match (splitOnL sepL content).get? 1 with
  | none => Except.error Err.indexError
  | some seg => Except.ok ((splitOnL qmarkL seg).headD [])

/-- `f"{artist} - {track_name}"`: the TIDAL search query. -/
def tidalQuery (artist track_name : String) : String :=
  artist ++ " - " ++ track_name

/-- `f"artist:{artist} track:{track_name}"`: the Spotify search query. -/
def spotifyQuery (artist track_name : String) : String :=
  "artist:" ++ artist ++ " track:" ++ track_name

/-- `get_tidal_url` from `bot.py`: one TIDAL search; on an exception or an
empty result list return `None`, otherwise the URL built from the first
result's id.  The first component is the trace of provider calls made. -/
def get_tidal_url (env : Env) (artist track_name : String) :
    List PCall × Option String :=
  ([PCall.tidalSearch (tidalQuery artist track_name)],
   match env.tidalSearch (tidalQuery artist track_name) with
   | Except.error _ => none
   | Except.ok [] => none
   | Except.ok (t :: _) => some ("https://tidal.com/browse/track/" ++ toString t.id))

/-- `get_spotify_url` from `bot.py`: one Spotify search; on an exception or an
empty item list return `None`, otherwise the first item's external URL. -/
def get_spotify_url (env : Env) (artist track_name : String) :
    List PCall × Option String :=
  ([PCall.spSearch (spotifyQuery artist track_name)],
   match env.spSearch (spotifyQuery artist track_name) with
   | Except.error _ => none
   | Except.ok [] => none
   | Except.ok (item :: _) => some item.spotifyUrl)

/-- The body of the `try:` block of the Spotify branch of `on_message`
(CASE 1).  `Except.error` is an exception escaping the body; `Except.ok none`
is the silent "Match not found on TIDAL." outcome; `Except.ok (some r)` is a
reply.  The trace lists the provider calls made before the body ended. -/
def spotify_branch_try (env : Env) (content : List Char) :
    List PCall × Except Err (Option String) :=
  match extract_track_id content with
  | Except.error e => ([], Except.error e)
  | Except.ok tid =>
    let track_id := String.mk tid
    match env.spTrack track_id with
    | Except.error e => ([PCall.spTrack track_id], Except.error e)
    | Except.ok track_info =>
      match track_info.artists[0]? with
      | none => ([PCall.spTrack track_id], Except.error Err.indexError)
      | some artist_name =>
        let res := get_tidal_url env artist_name track_info.name
        (PCall.spTrack track_id :: res.1,
         Except.ok (res.2.map (fun l => "🎵 **TIDAL Conversion:**\n" ++ l)))

/-- The body of the `try:` block of the TIDAL branch of `on_message`
(CASE 2), analogous to `spotify_branch_try`. -/
def tidal_branch_try (env : Env) (content : List Char) :
    List PCall × Except Err (Option String) :=
  match extract_track_id content with
  | Except.error e => ([], Except.error e)
  | Except.ok tid =>
    let track_id := String.mk tid
    match env.tidalTrack track_id with
    | Except.error e => ([PCall.tidalTrack track_id], Except.error e)
    | Except.ok t =>
      let res := get_spotify_url env t.artistName t.name
      (PCall.tidalTrack track_id :: res.1,
       Except.ok (res.2.map (fun l => "💚 **Spotify Conversion:**\n" ++ l)))

/-- The `except Exception as e: print(...)` handler wrapped around each
branch body: an escaping exception is swallowed and produces no reply. -/
def catchAll : Except Err (Option String) → Except Err (Option String)
  | Except.ok r => Except.ok r
  | Except.error _ => Except.ok none

/-- `content = message.content.strip()`. -/
def contentOf (raw : String) : List Char := stripL raw.data

/-- `on_message` from `bot.py`: ignore the bot's own messages, otherwise
strip the text and dispatch on the first matching link anchor (`if`/`elif`);
each branch body runs under `catchAll`.  Returns the provider-call trace and
the reply (`none` = no reply sent). -/
def on_message (env : Env) (raw : String) :
    List PCall × Except Err (Option String) :=
  if env.isSelf then ([], Except.ok none)
  else if containsL (contentOf raw) spotifyAnchorL then
    ((spotify_branch_try env (contentOf raw)).1,
     catchAll (spotify_branch_try env (contentOf raw)).2)
  else if containsL (contentOf raw) tidalAnchorL then
    ((tidal_branch_try env (contentOf raw)).1,
     catchAll (tidal_branch_try env (contentOf raw)).2)
  else ([], Except.ok none)

/-! ## The spec's Match Scorer, modelled from the spec's words (§4.4)

The source has no scorer: `get_tidal_url`/`get_spotify_url` take the first
search result.  To compare the code against the spec's `score` contract, the
definitions below follow the spec's words: normalize artist and title
(case-fold, strip punctuation and featuring annotations, collapse
whitespace), combine title equality/containment, artist
equality/containment and duration proximity into a similarity score, and
accept the highest-scoring candidate only if it clears a fixed acceptance
threshold. -/

/-- Track metadata as consumed by the spec's Match Scorer (§3). -/
structure TrackMeta where
  artistName : String
  title : String
  durationSeconds : Option Nat
deriving DecidableEq

/-- View of a TIDAL API track object as spec `TrackMetadata`. -/
def tidalMeta (t : TidalTrack) : TrackMeta := ⟨t.artistName, t.name, t.duration⟩

/-- Split a character list into maximal whitespace-free words. -/
def wordsL (s : List Char) : List (List Char) :=
  (s.foldr
    (fun c acc =>
      if c = ' ' then [] :: acc
      else
        match acc with
        | [] => [[c]]
        | t :: ts => (c :: t) :: ts)
    []).filter (fun t => t ≠ [])

/-- Truncate a token list at the first featuring-artist annotation. -/
def dropFeat (toks : List (List Char)) : List (List Char) :=
  toks.takeWhile (fun t =>
    !(t == "feat".data || t == "ft".data || t == "featuring".data))

/-- Spec normalization: case-fold, replace punctuation by spaces, collapse
whitespace into word boundaries, drop featuring annotations. -/
def normalize (s : String) : List (List Char) :=
  dropFeat (wordsL (s.data.map (fun c => if c.isAlphanum then c.toLower else ' ')))

/-- Similarity contribution of one normalized string field: 2 for equality,
1 for (non-trivial) containment either way, 0 otherwise. -/
def fieldScore (a b : List (List Char)) : Nat :=
  if a = b then 2
  else if a ≠ [] ∧ b ≠ [] ∧ ((findSub a b).isSome ∨ (findSub b a).isSome) then 1
  else 0

/-- Duration proximity signal: 1 when both durations are known and within a
five-second tolerance. -/
def durScore : Option Nat → Option Nat → Nat
  | some d1, some d2 => if d1 ≤ d2 + 5 ∧ d2 ≤ d1 + 5 then 1 else 0
  | _, _ => 0

/-- Combined similarity score of a candidate against the source track. -/
def similarity (src cand : TrackMeta) : Nat :=
  fieldScore (normalize src.title) (normalize cand.title)
    + fieldScore (normalize src.artistName) (normalize cand.artistName)
    + durScore src.durationSeconds cand.durationSeconds

/-- Duration distance used by the spec's tie-break (unknown counts as far). -/
def durDist : Option Nat → Option Nat → Nat
  | some d1, some d2 => max d1 d2 - min d1 d2
  | _, _ => 1000000

/-- The fixed acceptance threshold of the spec's scorer. -/
def acceptThreshold : Nat := 3

/-- The spec's `score(source, candidates)`: highest-scoring candidate if it
clears the acceptance threshold, tie-broken by duration proximity then by
provider order; otherwise no match (`none`). -/
def score (source : TrackMeta) (candidates : List TrackMeta) : Option TrackMeta :=
  let best := candidates.foldl
    (fun acc c =>
      match acc with
      | none => some c
      | some b =>
        if similarity source c > similarity source b
            ∨ (similarity source c = similarity source b
               ∧ durDist source.durationSeconds c.durationSeconds
                   < durDist source.durationSeconds b.durationSeconds)
        then some c else some b)
    none
  match best with
  | none => none
  | some b => if acceptThreshold ≤ similarity source b then some b else none

/-! ## Concrete environments and inputs used by witnesses and
counterexamples -/

/-- A TIDAL search result wholly unrelated to any source track below. -/
def badTidalTrack : TidalTrack := ⟨99, "zzz", "qqq", some 100⟩

/-- Provider behaviour: Spotify metadata lookup succeeds, the TIDAL search
returns one (unrelated) result. -/
def envBad : Env := ⟨false,
  fun _ => Except.ok ⟨["Artist"], "Song"⟩,
  fun _ => Except.ok [badTidalTrack],
  fun _ => Except.error (Err.provider "unused"),
  fun _ => Except.ok []⟩

/-- Provider behaviour: Spotify metadata lookup succeeds, the TIDAL search
returns an empty result list (the no-match outcome). -/
def envNoHit : Env := ⟨false,
  fun _ => Except.ok ⟨["Artist"], "Song"⟩,
  fun _ => Except.ok [],
  fun _ => Except.error (Err.provider "unused"),
  fun _ => Except.ok []⟩

/-- Provider behaviour: every search raises a transient provider error;
the Spotify metadata lookup succeeds. -/
def envDown : Env := ⟨false,
  fun _ => Except.ok ⟨["Artist"], "Song"⟩,
  fun _ => Except.error (Err.provider "timeout"),
  fun _ => Except.error (Err.provider "timeout"),
  fun _ => Except.error (Err.provider "timeout")⟩

/-- Provider behaviour: TIDAL search yields an empty list and Spotify search
raises, exercising both `None` paths of the search helpers. -/
def envMix : Env := ⟨false,
  fun _ => Except.ok ⟨["Artist"], "Song"⟩,
  fun _ => Except.ok [],
  fun _ => Except.error (Err.provider "unused"),
  fun _ => Except.error (Err.provider "rate limited")⟩

/-- An environment in which the inbound message was authored by the bot. -/
def envSelf : Env := ⟨true,
  fun _ => Except.ok ⟨["Artist"], "Song"⟩,
  fun _ => Except.ok [badTidalTrack],
  fun _ => Except.ok badTidalTrack,
  fun _ => Except.ok [⟨"https://open.spotify.com/track/x"⟩]⟩

/-- A message carrying both a Spotify and a TIDAL track link. -/
def bothMsg : String :=
  "open.spotify.com/track/abc?si=1 tidal.com/browse/track/777?u"

/-- A message carrying a single Spotify track link with a query string. -/
def spotMsg : String := "open.spotify.com/track/abc?si=1"

/-- A source track used against `badTidalTrack` by the scorer. -/
def srcDemo : TrackMeta := ⟨"daft punk", "one more time", some 320⟩

/-- Provider behaviour: both searches return a (first) result. -/
def envRich : Env := ⟨false,
  fun _ => Except.ok ⟨["Artist"], "Song"⟩,
  fun _ => Except.ok [badTidalTrack],
  fun _ => Except.ok badTidalTrack,
  fun _ => Except.ok [⟨"https://open.spotify.com/track/x"⟩]⟩

/-- A second Spotify link message, used by a cache-claim witness. -/
def spotMsg2 : String := "https://open.spotify.com/track/xyz?si=2"

/-- Recognizes the outbound *search* calls among provider calls. -/
def isSearchCall : PCall → Bool
  | PCall.tidalSearch _ => true
  | PCall.spSearch _ => true
  | _ => false

/-- Number of outbound search calls in a trace. -/
def countSearch (calls : List PCall) : Nat :=
  (calls.filter isSearchCall).length

/-! ## General lemmas about the string model -/

/-- `sepL` in explicit character form, for computation inside proofs. -/
theorem sepL_eq : sepL = ['t', 'r', 'a', 'c', 'k', '/'] := rfl

/-- `sepL` has six characters. -/
theorem sepL_len : sepL.length = 6 := rfl

/-- The Boolean `isPrefixOf` agrees with the prefix relation. -/
theorem isPrefixOf_true_iff [BEq α] [LawfulBEq α] (l₁ l₂ : List α) :
    l₁.isPrefixOf l₂ = true ↔ l₁ <+: l₂ := by
  induction l₁ generalizing l₂ with
  | nil => simp [List.isPrefixOf]
  | cons a as ih =>
    cases l₂ with
    | nil =>
      simp only [List.isPrefixOf]
      constructor
      · intro h; exact absurd h (by simp)
      · rintro ⟨t, ht⟩; exact absurd ht (by simp)
    | cons b bs => simp [List.isPrefixOf, List.cons_prefix_cons, ih]

/-- A list no longer than `u` that is a prefix of `u ++ v` is a prefix
of `u`. -/
theorem prefix_of_append_left (l u v : List Char) (hlen : l.length ≤ u.length)
    (h : l <+: u ++ v) : l <+: u := by
  rw [List.prefix_iff_eq_take, List.take_append_eq_append_take,
    Nat.sub_eq_zero_of_le hlen, List.take_zero, List.append_nil] at h
  rw [h]
  exact List.take_prefix _ _

/-- `sepL` cannot start strictly inside a block of fewer than six characters
that is followed by a full occurrence of `sepL`: `"track/"` does not overlap
itself. -/
theorem sep_not_prefix_mid (u t : List Char) (h0 : 0 < u.length)
    (h6 : u.length < 6) (h : sepL <+: u ++ (sepL ++ t)) : False := by
  rw [List.prefix_iff_eq_take, List.take_append_eq_append_take, sepL_len,
    List.take_of_length_le (Nat.le_of_lt h6),
    List.take_append_of_le_length (by rw [sepL_len]; omega)] at h
  have hd : sepL.drop u.length = sepL.take (6 - u.length) := by
    conv_lhs => rw [h]
    rw [List.drop_left]
  have hcase : u.length = 1 ∨ u.length = 2 ∨ u.length = 3 ∨ u.length = 4
      ∨ u.length = 5 := by omega
  rcases hcase with h1 | h1 | h1 | h1 | h1 <;> rw [h1] at hd <;>
    exact absurd hd (by decide)

/-- `sepL` cannot start within six characters of a `'?'`, because `'?'` does
not occur in `"track/"`. -/
theorem sep_not_prefix_qmark (u t : List Char) (h6 : u.length < 6)
    (h : sepL <+: u ++ ('?' :: t)) : False := by
  rw [List.prefix_iff_eq_take, List.take_append_eq_append_take, sepL_len,
    List.take_of_length_le (Nat.le_of_lt h6)] at h
  obtain ⟨m, hm⟩ : ∃ m, 6 - u.length = m + 1 := ⟨5 - u.length, by omega⟩
  rw [hm, List.take_succ_cons] at h
  have hmem : '?' ∈ sepL := by
    rw [h]; exact List.mem_append_right _ (List.mem_cons_self _ _)
  exact absurd hmem (by decide)

/-- Scanning a string that starts with the separator finds it at once. -/
theorem findSub_append_self (sep w : List Char) (hs : sep ≠ []) :
    findSub sep (sep ++ w) = some ([], w) := by
  cases sep with
  | nil => exact absurd rfl hs
  | cons c cs =>
    have hp : (c :: cs).isPrefixOf (c :: (cs ++ w)) = true :=
      (isPrefixOf_true_iff _ _).mpr ⟨w, rfl⟩
    show findSub (c :: cs) (c :: (cs ++ w)) = some ([], w)
    rw [findSub, if_pos hp]
    simp [List.drop_left]

/-- Unfolding a failed scan of a non-empty string. -/
theorem findSub_cons_none (sep : List Char) (c : Char) (a : List Char)
    (h : findSub sep (c :: a) = none) :
    sep.isPrefixOf (c :: a) = false ∧ findSub sep a = none := by
  rw [findSub] at h
  split at h
  · exact absurd h (by simp)
  · next hp =>
    exact ⟨Bool.eq_false_iff.mpr hp, Option.map_eq_none'.mp h⟩

/-- If `sepL` does not occur in `a`, the first occurrence of `sepL` in
`a ++ sepL ++ w` is exactly the explicit one. -/
theorem findSub_boundary (a w : List Char) (ha : findSub sepL a = none) :
    findSub sepL (a ++ (sepL ++ w)) = some (a, w) := by
  induction a with
  | nil =>
    rw [List.nil_append]
    exact findSub_append_self sepL w (by rw [sepL_eq]; simp)
  | cons c a ih =>
    obtain ⟨hp, hrec⟩ := findSub_cons_none sepL c a ha
    have hcond : sepL.isPrefixOf (c :: (a ++ (sepL ++ w))) = false := by
      rw [Bool.eq_false_iff]
      intro hc
      have hpre : sepL <+: (c :: a) ++ (sepL ++ w) :=
        (isPrefixOf_true_iff _ _).mp hc
      rcases Nat.lt_or_ge (c :: a).length 6 with hlt | hge
      · exact sep_not_prefix_mid (c :: a) w (by simp) hlt hpre
      · have hpre2 : sepL <+: c :: a :=
          prefix_of_append_left sepL (c :: a) (sepL ++ w)
            (by rw [sepL_len]; omega) hpre
        rw [(isPrefixOf_true_iff _ _).mpr hpre2] at hp
        exact absurd hp (by simp)
    show findSub sepL (c :: (a ++ (sepL ++ w))) = some (c :: a, w)
    rw [findSub, if_neg (by simp [hcond]), ih hrec]
    rfl

/-- If `sepL` does not occur in `id` and `id` contains no `'?'`, scanning
`id ++ '?' :: rest` for `sepL` skips past the `'?'`: any occurrence found
lies entirely within `rest`. -/
theorem findSub_qmark_skip (id rest : List Char) (hid : findSub sepL id = none)
    (hq : '?' ∉ id) :
    findSub sepL (id ++ '?' :: rest)
      = (findSub sepL rest).map (fun p => (id ++ '?' :: p.1, p.2)) := by
  induction id with
  | nil =>
    rw [List.nil_append, findSub,
      if_neg (by rw [sepL_eq]; simp [List.isPrefixOf])]
    rcases hr : findSub sepL rest with _ | ⟨b, a⟩ <;> simp [hr]
  | cons c id ih =>
    obtain ⟨hp, hrec⟩ := findSub_cons_none sepL c id hid
    have hq2 : '?' ∉ id := fun hm => hq (List.mem_cons_of_mem c hm)
    have hcond : sepL.isPrefixOf (c :: (id ++ '?' :: rest)) = false := by
      rw [Bool.eq_false_iff]
      intro hc
      have hpre : sepL <+: (c :: id) ++ ('?' :: rest) :=
        (isPrefixOf_true_iff _ _).mp hc
      rcases Nat.lt_or_ge (c :: id).length 6 with hlt | hge
      · exact sep_not_prefix_qmark (c :: id) rest hlt hpre
      · have hpre2 : sepL <+: c :: id :=
          prefix_of_append_left sepL (c :: id) ('?' :: rest)
            (by rw [sepL_len]; omega) hpre
        rw [(isPrefixOf_true_iff _ _).mpr hpre2] at hp
        exact absurd hp (by simp)
    show findSub sepL (c :: (id ++ '?' :: rest)) = _
    rw [findSub, if_neg (by simp [hcond]), ih hrec hq2]
    rcases hr : findSub sepL rest with _ | ⟨b, a⟩ <;> simp [hr]

/-- Scanning for a single character finds its first occurrence. -/
theorem findSub_single (q : Char) (id z : List Char) (hq : q ∉ id) :
    findSub [q] (id ++ q :: z) = some (id, z) := by
  induction id with
  | nil =>
    have hp : [q].isPrefixOf (q :: z) = true :=
      (isPrefixOf_true_iff _ _).mpr ⟨z, rfl⟩
    rw [List.nil_append, findSub, if_pos hp]
    simp
  | cons c id ih =>
    have hqc : q ≠ c := fun h => hq (by rw [h]; exact List.mem_cons_self c id)
    have hq2 : q ∉ id := fun hm => hq (List.mem_cons_of_mem c hm)
    have hbeq : (q == c) = false := beq_eq_false_iff_ne.mpr hqc
    show findSub [q] (c :: (id ++ q :: z)) = _
    rw [findSub, if_neg (by simp [List.isPrefixOf, hbeq]), ih hq2]
    rfl

/-- A character that is never found does not occur. -/
theorem findSub_none_mem (q : Char) (s : List Char)
    (h : findSub [q] s = none) : q ∉ s := by
  induction s with
  | nil => simp
  | cons c cs ih =>
    obtain ⟨hp, hrec⟩ := findSub_cons_none [q] c cs h
    have hqc : q ≠ c := by
      intro hqc
      rw [hqc] at hp
      simp [List.isPrefixOf] at hp
    simp only [List.mem_cons]
    rintro (h1 | h1)
    · exact hqc h1
    · exact ih hrec h1

/-- The text before the first occurrence of a character does not contain
that character. -/
theorem findSub_some_before (q : Char) (s b a : List Char)
    (h : findSub [q] s = some (b, a)) : q ∉ b := by
  induction s generalizing b a with
  | nil => rw [findSub] at h; simp at h
  | cons c cs ih =>
    rw [findSub] at h
    split at h
    · simp only [Option.some.injEq, Prod.mk.injEq] at h
      obtain ⟨hb, _⟩ := h
      rw [← hb]
      simp
    · next hp =>
      rcases hfs : findSub [q] cs with _ | ⟨b', a'⟩ <;> rw [hfs] at h
      · simp at h
      · simp only [Option.map_some', Option.some.injEq, Prod.mk.injEq] at h
        obtain ⟨hb, _⟩ := h
        have hqc : q ≠ c := by
          intro hqc
          rw [hqc] at hp
          exact hp (by simp [List.isPrefixOf])
        rw [← hb]
        simp only [List.mem_cons]
        rintro (h1 | h1)
        · exact hqc h1
        · exact ih b' a' hfs h1

/-- `qmarkL` in explicit character form. -/
theorem qmarkL_eq : qmarkL = ['?'] := rfl

/-- One step of the fueled splitter when the separator occurs. -/
theorem splitOnAux_cons_of_found (sep s b a : List Char) (n : Nat)
    (h : findSub sep s = some (b, a)) :
    splitOnAux sep (n + 1) s = b :: splitOnAux sep n a := by
  rw [splitOnAux, h]

/-- One step of the fueled splitter when the separator does not occur. -/
theorem splitOnAux_of_none (sep s : List Char) (n : Nat)
    (h : findSub sep s = none) :
    splitOnAux sep (n + 1) s = [s] := by
  rw [splitOnAux, h]

/-- `.split("?")[0]` of a segment of the form `id ++ "?" ++ z` is exactly
`id` when `id` itself contains no `'?'`. -/
theorem qsplit_head (id z : List Char) (h : '?' ∉ id) :
    (splitOnL qmarkL (id ++ '?' :: z)).headD [] = id := by
  rw [splitOnL, qmarkL_eq,
    splitOnAux_cons_of_found _ _ _ _ _ (findSub_single '?' id z h)]
  rfl

/-- `.split("?")[0]` never contains a `'?'`. -/
theorem qsplit_head_no_qmark (s : List Char) :
    '?' ∉ (splitOnL qmarkL s).headD [] := by
  rw [splitOnL, qmarkL_eq]
  rcases hfs : findSub ['?'] s with _ | ⟨b, a⟩
  · rw [splitOnAux_of_none _ _ _ hfs]
    exact findSub_none_mem '?' s hfs
  · rw [splitOnAux_cons_of_found _ _ _ _ _ hfs]
    exact findSub_some_before '?' s b a hfs

/-- The central parsing fact: on text of the shape
`a ++ "track/" ++ id ++ "?" ++ rest` where `"track/"` occurs nowhere in `a`
or `id` and `id` contains no `'?'`, the extraction
`content.split("track/")[1].split("?")[0]` returns exactly `id`. -/
theorem extract_after_anchor (a id rest : List Char)
    (ha : findSub sepL a = none) (hid : findSub sepL id = none)
    (hq : '?' ∉ id) :
    extract_track_id (a ++ (sepL ++ (id ++ '?' :: rest))) = Except.ok id := by
  obtain ⟨m, hm⟩ :
      ∃ m, (a ++ (sepL ++ (id ++ '?' :: rest))).length = m + 1 := by
    refine ⟨(a ++ (sepL ++ (id ++ '?' :: rest))).length - 1, ?_⟩
    have hpos : 0 < (a ++ (sepL ++ (id ++ '?' :: rest))).length := by
      simp
    omega
  rw [extract_track_id, splitOnL,
    splitOnAux_cons_of_found _ _ _ _ _
      (findSub_boundary a (id ++ '?' :: rest) ha), hm]
  rcases hr : findSub sepL rest with _ | ⟨b, aft⟩
  · rw [splitOnAux_of_none _ _ _
      (by rw [findSub_qmark_skip id rest hid hq, hr]; rfl)]
    show Except.ok ((splitOnL qmarkL (id ++ '?' :: rest)).headD []) = _
    rw [qsplit_head id rest hq]
  · rw [splitOnAux_cons_of_found _ _ _ _ _
      (by rw [findSub_qmark_skip id rest hid hq, hr]; rfl)]
    show Except.ok ((splitOnL qmarkL (id ++ '?' :: b)).headD []) = _
    rw [qsplit_head id b hq]

/-- Whatever the input, an id extracted by
`content.split("track/")[1].split("?")[0]` contains no `'?'`. -/
theorem extract_no_qmark (content id : List Char)
    (h : extract_track_id content = Except.ok id) : '?' ∉ id := by
  rw [extract_track_id] at h
  rcases hg : (splitOnL sepL content).get? 1 with _ | seg <;> rw [hg] at h
  · simp at h
  · simp only [Except.ok.injEq] at h
    rw [← h]
    exact qsplit_head_no_qmark seg

/-! ## Claim C2 — id extraction -/

/-- C2 counterexample: a message that contains the recognized anchor
`open.spotify.com/track/` followed by the clean id token `abc123` and the
query string `?si=xyz`, yet on which `content.split("track/")[1]` picks the
text after an *earlier* `track/` occurrence, so the parser does not extract
the native id `abc123`. -/
theorem C2_counterexample :
    ("track/x open.spotify.com/track/abc123?si=xyz").data
        = ("track/x ").data ++ spotifyAnchorL
            ++ (("abc123").data ++ '?' :: ("si=xyz").data)
    ∧ extract_track_id (("track/x open.spotify.com/track/abc123?si=xyz").data)
        = Except.ok (("x open.spotify.com/").data)
    ∧ extract_track_id (("track/x open.spotify.com/track/abc123?si=xyz").data)
        ≠ Except.ok (("abc123").data) := by
  refine ⟨by decide, by decide, by decide⟩

/-- C2 (amended): for every message of the form
`pre ++ anchor ++ id ++ "?" ++ rest` (either provider anchor) in which
`"track/"` occurs nowhere before the anchor's own `track/` segment and the
id token contains neither `'?'` nor `"track/"`, the extraction
`content.split("track/")[1].split("?")[0]` returns exactly the native id
with the query string stripped; and on *every* input the extracted id
contains no `'?'` (no query parameters survive). -/
theorem C2_extract_strips_query :
    (∀ pre id rest : List Char,
      findSub sepL (pre ++ spotifyOpenL) = none →
      findSub sepL id = none → '?' ∉ id →
      extract_track_id (pre ++ spotifyAnchorL ++ (id ++ '?' :: rest))
        = Except.ok id)
    ∧ (∀ pre id rest : List Char,
      findSub sepL (pre ++ tidalOpenL) = none →
      findSub sepL id = none → '?' ∉ id →
      extract_track_id (pre ++ tidalAnchorL ++ (id ++ '?' :: rest))
        = Except.ok id)
    ∧ (∀ content id : List Char,
      extract_track_id content = Except.ok id → '?' ∉ id) := by
  refine ⟨?_, ?_, extract_no_qmark⟩
  · intro pre id rest ha hid hq
    have hdec : pre ++ spotifyAnchorL ++ (id ++ '?' :: rest)
        = (pre ++ spotifyOpenL) ++ (sepL ++ (id ++ '?' :: rest)) := by
      rw [show spotifyAnchorL = spotifyOpenL ++ sepL by decide]
      simp [List.append_assoc]
    rw [hdec]
    exact extract_after_anchor _ id rest ha hid hq
  · intro pre id rest ha hid hq
    have hdec : pre ++ tidalAnchorL ++ (id ++ '?' :: rest)
        = (pre ++ tidalOpenL) ++ (sepL ++ (id ++ '?' :: rest)) := by
      rw [show tidalAnchorL = tidalOpenL ++ sepL by decide]
      simp [List.append_assoc]
    rw [hdec]
    exact extract_after_anchor _ id rest ha hid hq

/-- C2 witness: the amended statement applied to the concrete message
`"see open.spotify.com/track/abc123?si=xyz"`. -/
theorem C2_witness :
    extract_track_id (("see ").data ++ spotifyAnchorL
        ++ (("abc123").data ++ '?' :: ("si=xyz").data))
      = Except.ok (("abc123").data)
    ∧ '?' ∉ (("abc123").data) :=
  ⟨C2_extract_strips_query.1 ("see ").data ("abc123").data ("si=xyz").data
      (by decide) (by decide) (by decide),
   C2_extract_strips_query.2.2
     (("see ").data ++ spotifyAnchorL
        ++ (("abc123").data ++ '?' :: ("si=xyz").data)) ("abc123").data
     (C2_extract_strips_query.1 ("see ").data ("abc123").data ("si=xyz").data
       (by decide) (by decide) (by decide))⟩

/-! ## Claim C1 — match selection vs the spec's threshold scorer -/

/-- C1 counterexample: against the source track `srcDemo` the lone TIDAL
candidate `badTidalTrack` is wholly unrelated, so the spec's scorer rejects
the candidate set (`score` returns `none`: nothing clears the acceptance
threshold) — yet `get_tidal_url` returns that candidate's URL, because the
code takes the first provider search result unconditionally. -/
theorem C1_counterexample :
    score srcDemo ([badTidalTrack].map tidalMeta) = none
    ∧ (get_tidal_url envBad "daft punk" "one more time").2
        = some "https://tidal.com/browse/track/99" :=
  ⟨by decide, by decide⟩

/-- C1 (amended): the code applies no similarity score and no acceptance
threshold: whenever the provider search returns a non-empty candidate list,
`get_tidal_url` and `get_spotify_url` return the *first* candidate's URL —
even when no candidate clears the spec scorer's acceptance threshold — and
return `none` only on an empty result list or a raised exception. -/
theorem C1_first_result_unconditionally (env : Env) (a t : String)
    (tr : TidalTrack) (trs : List TidalTrack) (it : SpotifyItem)
    (its : List SpotifyItem) (src : TrackMeta)
    (h1 : env.tidalSearch (tidalQuery a t) = Except.ok (tr :: trs))
    (_hbad : score src ((tr :: trs).map tidalMeta) = none)
    (h2 : env.spSearch (spotifyQuery a t) = Except.ok (it :: its)) :
    (get_tidal_url env a t).2
        = some ("https://tidal.com/browse/track/" ++ toString tr.id)
    ∧ (get_spotify_url env a t).2 = some it.spotifyUrl := by
  constructor
  · simp [get_tidal_url, h1]
  · simp [get_spotify_url, h2]

/-- C1 witness: the amended statement at a concrete environment whose search
results are rejected by the spec's scorer. -/
theorem C1_witness :
    (get_tidal_url envRich "daft punk" "one more time").2
        = some ("https://tidal.com/browse/track/" ++ toString badTidalTrack.id)
    ∧ (get_spotify_url envRich "daft punk" "one more time").2
        = some (SpotifyItem.mk "https://open.spotify.com/track/x").spotifyUrl :=
  C1_first_result_unconditionally envRich "daft punk" "one more time"
    badTidalTrack [] ⟨"https://open.spotify.com/track/x"⟩ [] srcDemo
    rfl (by decide) rfl

/-! ## Claim C3 — no cache: repeated resolution repeats the search -/

/-- C3 counterexample: resolving the same Spotify link twice issues two
outbound search calls, not one — the code has no resolution cache — though
both resolutions do return the identical result. -/
theorem C3_counterexample :
    countSearch ((on_message envBad spotMsg).1 ++ (on_message envBad spotMsg).1)
      = 2
    ∧ countSearch ((on_message envBad spotMsg).1 ++ (on_message envBad spotMsg).1)
      ≠ 1
    ∧ (on_message envBad spotMsg).2 = (on_message envBad spotMsg).2 :=
  ⟨by decide, by decide, rfl⟩

/-- C3 (amended): there is no cache — each resolution of a Spotify-link
message performs its own outbound search, so two resolutions of the same
link issue two search calls; both return the identical result because
resolution is a deterministic function of the message and the provider
responses. -/
theorem C3_no_cache_two_searches (env : Env) (raw : String) (tid : List Char)
    (info : SpotifyMeta) (artist : String)
    (hself : env.isSelf = false)
    (hanch : containsL (contentOf raw) spotifyAnchorL = true)
    (hex : extract_track_id (contentOf raw) = Except.ok tid)
    (hmeta : env.spTrack (String.mk tid) = Except.ok info)
    (hart : info.artists[0]? = some artist) :
    countSearch ((on_message env raw).1 ++ (on_message env raw).1) = 2
    ∧ (on_message env raw).2 = (on_message env raw).2 := by
  have htr : (on_message env raw).1
      = [PCall.spTrack (String.mk tid),
         PCall.tidalSearch (tidalQuery artist info.name)] := by
    rw [on_message, if_neg (by simp [hself]), if_pos hanch]
    simp [spotify_branch_try, hex, hmeta, hart, get_tidal_url]
  refine ⟨?_, rfl⟩
  rw [htr]
  simp [countSearch, isSearchCall]

/-- C3 witness: the amended statement at a concrete environment and link. -/
theorem C3_witness :
    countSearch ((on_message envBad spotMsg2).1 ++ (on_message envBad spotMsg2).1)
      = 2
    ∧ (on_message envBad spotMsg2).2 = (on_message envBad spotMsg2).2 :=
  C3_no_cache_two_searches envBad spotMsg2 ("xyz").data ⟨["Artist"], "Song"⟩
    "Artist" rfl (by decide) (by decide) rfl rfl

/-! ## Claim C4 — all provider failures are caught -/

/-- The exception handler always yields a normal (non-exception) outcome. -/
theorem catchAll_ok (x : Except Err (Option String)) :
    ∃ r, catchAll x = Except.ok r := by
  cases x <;> exact ⟨_, rfl⟩

/-- C4: for every environment (hence every combination of provider failures)
and every message, `on_message` terminates with a normal outcome
`Except.ok _`: each branch body runs under the `except` handler, so the
chat-platform caller never receives a raw provider exception. -/
theorem C4_no_raw_provider_exception (env : Env) (raw : String) :
    ∃ r, (on_message env raw).2 = Except.ok r := by
  rw [on_message]
  by_cases hs : env.isSelf = true
  · simp [hs]
  · by_cases h1 : containsL (contentOf raw) spotifyAnchorL = true
    · simp only [hs, h1, if_true, if_false]
      exact catchAll_ok _
    · by_cases h2 : containsL (contentOf raw) tidalAnchorL = true
      · simp only [hs, h1, h2, if_true, if_false]
        exact catchAll_ok _
      · simp [hs, h1, h2]

/-! ## Claim C5 — which terminal states produce a reply -/

/-- C5 counterexample: a resolution that terminates in the `NoMatch` state
(the TIDAL search succeeds with an empty candidate list) produces no reply:
the code only prints `"Match not found on TIDAL."` to the console. -/
theorem C5_counterexample :
    on_message envNoHit spotMsg
      = ([PCall.spTrack "abc", PCall.tidalSearch "Artist - Song"],
         Except.ok none) := by
  decide

/-- A caught outcome that is a reply was already a reply before the catch. -/
theorem catchAll_ok_some (x : Except Err (Option String)) (r : String)
    (h : catchAll x = Except.ok (some r)) : x = Except.ok (some r) := by
  cases x with
  | error e => simp [catchAll] at h
  | ok v => simpa [catchAll] using h

/-- A reply from the Spotify branch is always a TIDAL conversion message. -/
theorem spotify_reply_shape (env : Env) (c : List Char) (r : String)
    (h : (spotify_branch_try env c).2 = Except.ok (some r)) :
    ∃ l, r = "🎵 **TIDAL Conversion:**\n" ++ l := by
  rw [spotify_branch_try] at h
  rcases hex : extract_track_id c with e | tid
  · simp only [hex] at h
    simp at h
  · simp only [hex] at h
    rcases hmeta : env.spTrack (String.mk tid) with e | info
    · simp only [hmeta] at h
      simp at h
    · simp only [hmeta] at h
      rcases hart : info.artists[0]? with _ | artist
      · simp only [hart] at h
        simp at h
      · simp only [hart] at h
        rcases hurl : (get_tidal_url env artist info.name).2 with _ | l
        · simp only [hurl] at h
          simp at h
        · simp only [hurl, Option.map_some', Except.ok.injEq,
            Option.some.injEq] at h
          exact ⟨l, h.symm⟩

/-- A reply from the TIDAL branch is always a Spotify conversion message. -/
theorem tidal_reply_shape (env : Env) (c : List Char) (r : String)
    (h : (tidal_branch_try env c).2 = Except.ok (some r)) :
    ∃ l, r = "💚 **Spotify Conversion:**\n" ++ l := by
  rw [tidal_branch_try] at h
  rcases hex : extract_track_id c with e | tid
  · simp only [hex] at h
    simp at h
  · simp only [hex] at h
    rcases hmeta : env.tidalTrack (String.mk tid) with e | t
    · simp only [hmeta] at h
      simp at h
    · simp only [hmeta] at h
      rcases hurl : (get_spotify_url env t.artistName t.name).2 with _ | l
      · simp only [hurl] at h
        simp at h
      · simp only [hurl, Option.map_some', Except.ok.injEq,
          Option.some.injEq] at h
        exact ⟨l, h.symm⟩

/-- C5 (amended): only the `Matched` terminal state produces a reply — every
reply `on_message` ever sends is a conversion message built from a found
target URL; `NoMatch`, `SourceNotFound` and transient provider failures are
silent (console logging only), exactly like the no-link case. -/
theorem C5_only_match_replies (env : Env) (raw : String) (r : String)
    (h : (on_message env raw).2 = Except.ok (some r)) :
    (∃ l, r = "🎵 **TIDAL Conversion:**\n" ++ l)
    ∨ (∃ l, r = "💚 **Spotify Conversion:**\n" ++ l) := by
  rw [on_message] at h
  by_cases hs : env.isSelf = true
  · rw [if_pos hs] at h
    simp at h
  · rw [if_neg hs] at h
    by_cases h1 : containsL (contentOf raw) spotifyAnchorL = true
    · rw [if_pos h1] at h
      exact Or.inl (spotify_reply_shape env (contentOf raw) r
        (catchAll_ok_some _ r h))
    · rw [if_neg h1] at h
      by_cases h2 : containsL (contentOf raw) tidalAnchorL = true
      · rw [if_pos h2] at h
        exact Or.inr (tidal_reply_shape env (contentOf raw) r
          (catchAll_ok_some _ r h))
      · rw [if_neg h2] at h
        simp at h

/-- C5 witness: the amended statement at a concrete resolved message. -/
theorem C5_witness :
    (∃ l, "🎵 **TIDAL Conversion:**\nhttps://tidal.com/browse/track/99"
        = "🎵 **TIDAL Conversion:**\n" ++ l)
    ∨ (∃ l, "🎵 **TIDAL Conversion:**\nhttps://tidal.com/browse/track/99"
        = "💚 **Spotify Conversion:**\n" ++ l) :=
  C5_only_match_replies envBad spotMsg
    "🎵 **TIDAL Conversion:**\nhttps://tidal.com/browse/track/99" (by decide)

/-! ## Claim C6 — no retry on transient failure -/

/-- C6 counterexample: when the TIDAL search raises a transient provider
error, the whole resolution makes exactly one search attempt and ends with
no reply — there is no retry controller, so a provider that would succeed on
a later attempt is never asked again. -/
theorem C6_counterexample :
    countSearch (on_message envDown spotMsg).1 = 1
    ∧ (on_message envDown spotMsg).2 = Except.ok none :=
  ⟨by decide, by decide⟩

/-- C6 (amended): each search helper makes exactly one provider call per
invocation — never a second attempt — and a transient error on that single
attempt immediately surfaces as the failure result `none`. -/
theorem C6_single_attempt (env : Env) (a t : String) :
    (get_tidal_url env a t).1 = [PCall.tidalSearch (tidalQuery a t)]
    ∧ (get_spotify_url env a t).1 = [PCall.spSearch (spotifyQuery a t)]
    ∧ (∀ e, env.tidalSearch (tidalQuery a t) = Except.error e →
        (get_tidal_url env a t).2 = none)
    ∧ (∀ e, env.spSearch (spotifyQuery a t) = Except.error e →
        (get_spotify_url env a t).2 = none) := by
  refine ⟨rfl, rfl, ?_, ?_⟩
  · intro e he
    simp [get_tidal_url, he]
  · intro e he
    simp [get_spotify_url, he]

/-- C6 witness: the amended statement at a concrete failing environment. -/
theorem C6_witness :
    (get_tidal_url envDown "Artist" "Song").2 = none
    ∧ (get_spotify_url envDown "Artist" "Song").2 = none :=
  ⟨(C6_single_attempt envDown "Artist" "Song").2.2.1
      (Err.provider "timeout") rfl,
   (C6_single_attempt envDown "Artist" "Song").2.2.2
      (Err.provider "timeout") rfl⟩

/-! ## Claim C7 — no recognizable link: silent, not an error -/

/-- C7: when neither link anchor occurs in the (stripped) message text,
`on_message` makes no provider call and sends no reply, and this outcome is
a normal return (`Except.ok none`), not an error. -/
theorem C7_no_link_silent (env : Env) (raw : String)
    (h1 : containsL (contentOf raw) spotifyAnchorL = false)
    (h2 : containsL (contentOf raw) tidalAnchorL = false) :
    on_message env raw = ([], Except.ok none) := by
  rw [on_message]
  by_cases hs : env.isSelf = true
  · rw [if_pos hs]
  · rw [if_neg hs, if_neg (by simp [h1]), if_neg (by simp [h2])]

/-- C7 witness: a plain chat message without links. -/
theorem C7_witness :
    on_message envNoHit "just chatting about music" = ([], Except.ok none) :=
  C7_no_link_silent envNoHit "just chatting about music"
    (by decide) (by decide)

/-! ## Claim C8 — the bot ignores its own messages -/

/-- C8: when the message author is the bot itself, `on_message` returns at
once: no parsing, no provider call (empty trace), no reply — whatever the
message content. -/
theorem C8_self_ignored (env : Env) (raw : String) (h : env.isSelf = true) :
    on_message env raw = ([], Except.ok none) := by
  rw [on_message, if_pos h]

/-- C8 witness: even a message containing a Spotify link is ignored when it
was authored by the bot. -/
theorem C8_witness : on_message envSelf spotMsg = ([], Except.ok none) :=
  C8_self_ignored envSelf spotMsg rfl

/-! ## Claim C9 — branch exclusivity and Spotify priority -/

/-- The Spotify branch never performs a TIDAL metadata lookup. -/
theorem spotify_no_tidalTrack (env : Env) (c : List Char) (id : String) :
    PCall.tidalTrack id ∉ (spotify_branch_try env c).1 := by
  rw [spotify_branch_try]
  rcases hex : extract_track_id c with e | tid <;> simp only [hex]
  · simp
  · rcases hmeta : env.spTrack (String.mk tid) with e | info <;>
      simp only [hmeta]
    · simp
    · rcases hart : info.artists[0]? with _ | artist <;> simp only [hart]
      · simp
      · simp [get_tidal_url]

/-- C9: when a message contains both the Spotify anchor and the TIDAL
anchor, `on_message` runs the Spotify branch (the `if` wins over the
`elif`): the whole outcome is the caught Spotify branch outcome, no TIDAL
metadata lookup is ever made, and at most one reply is produced. -/
theorem C9_spotify_first (env : Env) (raw : String)
    (hself : env.isSelf = false)
    (h1 : containsL (contentOf raw) spotifyAnchorL = true)
    (_h2 : containsL (contentOf raw) tidalAnchorL = true) :
    on_message env raw
      = ((spotify_branch_try env (contentOf raw)).1,
         catchAll (spotify_branch_try env (contentOf raw)).2)
    ∧ (∀ id, PCall.tidalTrack id ∉ (on_message env raw).1)
    ∧ ((on_message env raw).2 = Except.ok none
       ∨ ∃ r, (on_message env raw).2 = Except.ok (some r)) := by
  have hmain : on_message env raw
      = ((spotify_branch_try env (contentOf raw)).1,
         catchAll (spotify_branch_try env (contentOf raw)).2) := by
    rw [on_message, if_neg (by simp [hself]), if_pos h1]
  refine ⟨hmain, ?_, ?_⟩
  · intro id
    rw [hmain]
    exact spotify_no_tidalTrack env (contentOf raw) id
  · rw [hmain]
    rcases hx : (spotify_branch_try env (contentOf raw)).2 with e | v
    · left
      simp [catchAll]
    · cases v with
      | none =>
        left
        simp [catchAll]
      | some r =>
        right
        exact ⟨r, by simp [catchAll]⟩

/-- C9 witness: a message containing both anchors takes the Spotify branch
and never looks up the TIDAL id `777` that the message also carries. -/
theorem C9_witness :
    on_message envBad bothMsg
      = ((spotify_branch_try envBad (contentOf bothMsg)).1,
         catchAll (spotify_branch_try envBad (contentOf bothMsg)).2)
    ∧ PCall.tidalTrack "777" ∉ (on_message envBad bothMsg).1 :=
  ⟨(C9_spotify_first envBad bothMsg rfl (by decide) (by decide)).1,
   (C9_spotify_first envBad bothMsg rfl (by decide) (by decide)).2.1 "777"⟩

/-! ## Claim C10 — totality of the search helpers -/

/-- C10: `get_tidal_url` and `get_spotify_url` are total: their result is
always either a URL string or `none`; a raised provider exception is caught
and yields `none`, and an empty provider result list also yields `none`. -/
theorem C10_search_helpers_total (env : Env) (a t : String) :
    ((get_tidal_url env a t).2 = none ∨ ∃ u, (get_tidal_url env a t).2 = some u)
    ∧ ((get_spotify_url env a t).2 = none
       ∨ ∃ u, (get_spotify_url env a t).2 = some u)
    ∧ (∀ e, env.tidalSearch (tidalQuery a t) = Except.error e →
        (get_tidal_url env a t).2 = none)
    ∧ (env.tidalSearch (tidalQuery a t) = Except.ok [] →
        (get_tidal_url env a t).2 = none)
    ∧ (∀ e, env.spSearch (spotifyQuery a t) = Except.error e →
        (get_spotify_url env a t).2 = none)
    ∧ (env.spSearch (spotifyQuery a t) = Except.ok [] →
        (get_spotify_url env a t).2 = none) := by
  refine ⟨?_, ?_, ?_, ?_, ?_, ?_⟩
  · rcases h : (get_tidal_url env a t).2 with _ | u
    · exact Or.inl rfl
    · exact Or.inr ⟨u, rfl⟩
  · rcases h : (get_spotify_url env a t).2 with _ | u
    · exact Or.inl rfl
    · exact Or.inr ⟨u, rfl⟩
  · intro e he
    simp [get_tidal_url, he]
  · intro he
    simp [get_tidal_url, he]
  · intro e he
    simp [get_spotify_url, he]
  · intro he
    simp [get_spotify_url, he]

/-- C10 witness: both `None` paths at a concrete environment (empty TIDAL
result list, raised Spotify search exception). -/
theorem C10_witness :
    (get_tidal_url envMix "Artist" "Song").2 = none
    ∧ (get_spotify_url envMix "Artist" "Song").2 = none :=
  ⟨(C10_search_helpers_total envMix "Artist" "Song").2.2.2.1 rfl,
   (C10_search_helpers_total envMix "Artist" "Song").2.2.2.2.1
      (Err.provider "rate limited") rfl⟩

end LinkBot
